import Mathlib

/-!
Verification development for the FIP reader (`fip_reader.py`).

The program is shallowly embedded: RDF quads become a `Quad` structure,
dictionaries become association lists, Python string operations are
reimplemented on `List Char` so that every definition is executable and
kernel-reducible, and the HTTP layer is abstracted as a function from URL
to an optional `(status, body)` pair (`none` models a raised exception).
-/

set_option maxRecDepth 20000

/-! ## String utilities modelling Python string operations -/

/-- Membership test for a substring, modelling Python's `sub in s` on the
character list of `s`. -/
def charsContains (sub : List Char) : List Char → Bool
  | [] => sub.isEmpty
  | c :: rest => sub.isPrefixOf (c :: rest) || charsContains sub rest

/-- Python's `sub in s` substring test. -/
def strContains (s sub : String) : Bool :=
  charsContains sub.data s.data

/-- Python's `s.lower()` (the strings handled by the program are ASCII). -/
def lowerStr (s : String) : String :=
  ⟨s.data.map Char.toLower⟩

/-- Python's `s.upper()` (the strings handled by the program are ASCII). -/
def upperStr (s : String) : String :=
  ⟨s.data.map Char.toUpper⟩

/-- Fuel-indexed worker for `pySplit`; the fuel starts at one more than the
length of the list, so the fuel-exhausted branch is unreachable for the
non-empty separators the program uses. -/
def splitCharsAux (sep : List Char) : Nat → List Char → List Char → List (List Char)
  | _, [], acc => [acc]
  | 0, l, acc => [acc ++ l]
  | fuel + 1, c :: rest, acc =>
    if sep.isPrefixOf (c :: rest) then
      acc :: splitCharsAux sep fuel ((c :: rest).drop sep.length) []
    else
      splitCharsAux sep fuel rest (acc ++ [c])

/-- Python's `s.split(sep)` for a non-empty separator. -/
def pySplit (s sep : String) : List String :=
  (splitCharsAux sep.data (s.data.length + 1) s.data []).map (fun l => ⟨l⟩)

/-- The last element of `s.split(sep)`, i.e. the substring after the last
occurrence of `sep` (or all of `s` when `sep` does not occur). -/
def splitLast (s sep : String) : String :=
  (pySplit s sep).getLastD ""

/-- Joining a list of strings with a separator, used to reassemble the part
before the last separator occurrence for `rsplit1`. -/
def joinSep (sep : String) : List String → String
  | [] => ""
  | [x] => x
  | x :: y :: xs => x ++ sep ++ joinSep sep (y :: xs)

/-- Python's `s.rsplit(sep, 1)` viewed as a pair (part before the last
occurrence of `sep`, part after it); only used when `sep` occurs in `s`. -/
def rsplit1 (sep s : String) : String × String :=
  let parts := pySplit s sep
  (joinSep sep parts.dropLast, parts.getLastD "")

/-- Python's `s.replace("-", " ").replace("_", " ")`, character by
character. -/
def dashesToSpaces (s : String) : String :=
  ⟨s.data.map (fun c => if c = '-' || c = '_' then ' ' else c)⟩

/-! ## Data model -/

/-- One RDF quad as iterated by the program: subject, predicate and object
as strings, a flag telling whether the object is a literal (Python's
`isinstance(o, Literal)`), and the graph context it came from. -/
structure Quad where
  subj : String
  pred : String
  obj : String
  objLit : Bool
  ctx : String
deriving DecidableEq

/-- The header record built by `parse_fip_header`. -/
structure FipInfo where
  label : Option String
  description : Option String
  version : Option String
  declared_by : Option String
  declaration_index : Option String
  creators : List String
  created : Option String
  wizard_source : Option String
deriving DecidableEq

/-- The initial `fip_info` dictionary of `parse_fip_header`. -/
def emptyFipInfo : FipInfo :=
  ⟨none, none, none, none, none, [], none, none⟩

/-- One iteration of the quad loop of `parse_fip_header`: a sequence of
independent substring tests on the predicate, each overwriting its field. -/
def headerStep (info : FipInfo) (q : Quad) : FipInfo :=
  let p := lowerStr q.pred
  let o := q.obj
  let info := if strContains p "label" then { info with label := some o } else info
  let info := if strContains p "description" then { info with description := some o } else info
  let info := if strContains p "version" then { info with version := some o } else info
  let info := if strContains p "declared-by" then { info with declared_by := some o } else info
  let info := if strContains p "declaration-index" then { info with declaration_index := some o } else info
  let info := if strContains p "creator" && strContains o "orcid.org" then { info with creators := info.creators ++ [o] } else info
  let info := if strContains p "created" && q.objLit then { info with created := some o } else info
  let info := if strContains q.pred "wasDerivedFrom" && strContains o "fip/wizard" then { info with wizard_source := some o } else info
  info

/-- Embedding of `parse_fip_header`, applied to the flattened quad list of the parsed
file (the program iterates all contexts and their triples in order). -/
def parseFipHeader (quads : List Quad) : FipInfo :=
  quads.foldl headerStep emptyFipInfo

/-! ## Declaration parser (`parse_declaration`) -/

/-- The `declaration` dictionary built by `parse_declaration`. -/
structure Declaration where
  question : Option String
  question_id : Option String
  resource_label : Option String
  resource_uri : Option String
  resource_type : String
deriving DecidableEq

/-- The initial `declaration` dictionary. -/
def emptyDeclaration : Declaration :=
  ⟨none, none, none, none, "current"⟩

/-- Loop state of `parse_declaration`: the declaration under construction
plus the `labels` dictionary (subject string to label string). -/
structure DeclState where
  decl : Declaration
  labels : List (String × String)
deriving DecidableEq

/-- Lookup in an association list modelling a Python dictionary. -/
def lookupStr (k : String) : List (String × String) → Option String
  | [] => none
  | (k', v) :: rest => if k' = k then some v else lookupStr k rest

/-- Python dictionary assignment `d[k] = v` on an association list:
replace the value when the key exists, append otherwise. -/
def setKey (k v : String) : List (String × String) → List (String × String)
  | [] => [(k, v)]
  | (k', v') :: rest => if k' = k then (k', v) :: rest else (k', v') :: setKey k v rest

/-- The predicate test of the `refers-to-question` branch: a substring
match on the lowercased predicate, or exact equality with the FIP term
URI (the second disjunct is kept from the source even though it is
subsumed by the first). -/
def questionPredMatch (p : String) : Bool :=
  strContains (lowerStr p) "refers-to-question" ||
    p == "https://w3id.org/fair/fip/terms/refers-to-question"

/-- The predicate test of the `declares-current-use-of` branch. -/
def currentPredMatch (p : String) : Bool :=
  strContains (lowerStr p) "declares-current-use-of" ||
    p == "https://w3id.org/fair/fip/terms/declares-current-use-of"

/-- The predicate test of the `declares-planned-use-of` branch. -/
def plannedPredMatch (p : String) : Bool :=
  strContains (lowerStr p) "declares-planned-use-of" ||
    p == "https://w3id.org/fair/fip/terms/declares-planned-use-of"

/-- The predicate test of the `declares-planned-replacement-of` branch. -/
def replacementPredMatch (p : String) : Bool :=
  strContains (lowerStr p) "declares-planned-replacement-of" ||
    p == "https://w3id.org/fair/fip/terms/declares-planned-replacement-of"

/-- One iteration of the quad loop of `parse_declaration`. -/
def declStep (st : DeclState) (q : Quad) : DeclState :=
  let st :=
    if strContains (lowerStr q.pred) "label" then
      { st with labels := setKey q.subj q.obj st.labels }
    else st
  let st :=
    if questionPredMatch q.pred then
      let d := { st.decl with question := some q.obj }
      let d :=
        if strContains q.obj "FIP-Question-" then
          { d with question_id := some (splitLast q.obj "FIP-Question-") }
        else if strContains q.obj "/F" || strContains q.obj "/A" ||
            strContains q.obj "/I" || strContains q.obj "/R" then
          { d with question_id := some (splitLast q.obj "/") }
        else d
      { st with decl := d }
    else st
  let st :=
    if currentPredMatch q.pred then
      { st with decl := { st.decl with resource_uri := some q.obj, resource_type := "current" } }
    else st
  let st :=
    if plannedPredMatch q.pred then
      { st with decl := { st.decl with resource_uri := some q.obj, resource_type := "planned" } }
    else st
  let st :=
    if replacementPredMatch q.pred then
      { st with decl := { st.decl with resource_uri := some q.obj, resource_type := "replacement" } }
    else st
  st

/-- The label-resolution epilogue of `parse_declaration`: look the
resource URI up in the collected labels, else derive a fallback label
from the URI fragment or last path segment. -/
def finalizeDecl (st : DeclState) : Declaration :=
  match st.decl.resource_uri with
  | none => st.decl
  | some uri =>
    match lookupStr uri st.labels with
    | some l => { st.decl with resource_label := some l }
    | none =>
      if strContains uri "#" then
        { st.decl with resource_label := some (dashesToSpaces (splitLast uri "#")) }
      else if strContains uri "/" then
        if splitLast uri "/" ≠ "" then
          { st.decl with resource_label := some (dashesToSpaces (splitLast uri "/")) }
        else st.decl
      else st.decl

/-- Embedding of `parse_declaration` on the flattened quad list of one declaration
nanopublication. -/
def parseDeclaration (quads : List Quad) : Declaration :=
  finalizeDecl (quads.foldl declStep ⟨emptyDeclaration, []⟩)

/-! ## Principle organizers -/

/-- A resource entry as placed in a principle bucket. -/
structure ResourceEntry where
  label : Option String
  uri : Option String
  rtype : String
deriving DecidableEq

/-- One principle bucket: the `data` and `metadata` lists. -/
structure Bucket where
  data : List ResourceEntry
  metadata : List ResourceEntry
deriving DecidableEq

/-- The 15 fixed principle keys, in the order the organizers insert them. -/
def principleKeys : List String :=
  ["F1", "F2", "F3", "F4", "A1", "A1.1", "A1.2", "A2",
   "I1", "I2", "I3", "R1", "R1.1", "R1.2", "R1.3"]

/-- The fresh organized table, every bucket empty. -/
def emptyBuckets : List (String × Bucket) :=
  principleKeys.map (fun k => (k, ⟨[], []⟩))

/-- Key lookup in the organized table (Python's `organized[principle]` /
`principle in organized`). -/
def lookupKey (k : String) : List (String × Bucket) → Option Bucket
  | [] => none
  | (k', b) :: rest => if k' = k then some b else lookupKey k rest

/-- Appending one entry to the `metadata` list (when `toMeta`) or the
`data` list of a bucket. -/
def bucketAdd (b : Bucket) (toMeta : Bool) (e : ResourceEntry) : Bucket :=
  if toMeta then { b with metadata := b.metadata ++ [e] }
  else { b with data := b.data ++ [e] }

/-- In-place append to the bucket stored under key `k`, modelling the
Python mutation `organized[principle][...].append(resource_info)`: every
entry whose key equals `k` gets the entry appended, the rest stay. -/
def addToBucket : List (String × Bucket) → String → Bool → ResourceEntry →
    List (String × Bucket)
  | [], _, _, _ => []
  | (k', b) :: rest, k, toMeta, e =>
    if k' = k then (k', bucketAdd b toMeta e) :: addToBucket rest k toMeta e
    else (k', b) :: addToBucket rest k toMeta e

/-- Python's `a or b` for two optional strings, where `None` and the empty
string are falsy (the label fallback `resource_label or resource_uri`). -/
def pyOr (a b : Option String) : Option String :=
  match a with
  | some s => if s = "" then b else some s
  | none => b

/-- The `resource_info` dictionary built by `organize_by_principle`. -/
def entryOf (d : Declaration) : ResourceEntry :=
  ⟨pyOr d.resource_label d.resource_uri, d.resource_uri, d.resource_type⟩

/-- One iteration of the declaration loop of `organize_by_principle`:
skip records with a falsy `question_id`, split the id on the last dash
(or default the type to `"D"` when there is no dash), then append to the
matching bucket when the principle is a known key. -/
def organizeStep (org : List (String × Bucket)) (d : Declaration) :
    List (String × Bucket) :=
  match d.question_id with
  | none => org
  | some q =>
    if q = "" then org
    else
      let pd := if strContains q "-" then rsplit1 "-" q else (q, "D")
      if (lookupKey pd.1 org).isSome then
        addToBucket org pd.1 (decide (upperStr pd.2 = "MD")) (entryOf d)
      else org

/-- Embedding of `organize_by_principle`. -/
def organizeByPrinciple (ds : List Declaration) : List (String × Bucket) :=
  ds.foldl organizeStep emptyBuckets

/-- One record of the JSON pipeline, as produced by `read_fip_from_json`:
all fields are plain strings there. -/
structure JsonDecl where
  question_id : String
  resource_label : String
  resource_uri : String
  resource_type : String
  principle : String
  data_type : String
deriving DecidableEq

/-- The `resource_info` dictionary built by `organize_by_principle_from_json`. -/
def jsonEntryOf (jd : JsonDecl) : ResourceEntry :=
  ⟨some jd.resource_label, some jd.resource_uri, jd.resource_type⟩

/-- One iteration of the declaration loop of
`organize_by_principle_from_json`: require a truthy principle that is a
known key, then append to `data` when the lowercased type is `"data"`,
else to `metadata`. -/
def organizeFromJsonStep (org : List (String × Bucket)) (jd : JsonDecl) :
    List (String × Bucket) :=
  if jd.principle = "" then org
  else if (lookupKey jd.principle org).isSome then
    addToBucket org jd.principle (decide (lowerStr jd.data_type ≠ "data")) (jsonEntryOf jd)
  else org

/-- Embedding of `organize_by_principle_from_json`. -/
def organizeByPrincipleFromJson (js : List JsonDecl) : List (String × Bucket) :=
  js.foldl organizeFromJsonStep emptyBuckets

/-! ## The FIP question table and the JSON principle matcher -/

/-- The `FIP_QUESTIONS` table: question key, principle, type, question
text, in source order. -/
def FIP_QUESTIONS : List (String × String × String × String) :=
  [("FIP-Question-F1-D", "F1", "Data", "What globally unique, persistent, resolvable identifiers do you use for datasets?"),
   ("FIP-Question-F1-MD", "F1", "Metadata", "What globally unique, persistent, resolvable identifiers do you use for metadata records?"),
   ("FIP-Question-F2-D", "F2", "Data", "Which metadata schemas do you use for findability?"),
   ("FIP-Question-F2-MD", "F2", "Metadata", "Which metadata schemas do you use for describing metadata?"),
   ("FIP-Question-F3-D", "F3", "Data", "What is the technology that links the persistent identifiers of your data to the metadata description?"),
   ("FIP-Question-F3-MD", "F3", "Metadata", "What is the technology linking metadata identifiers?"),
   ("FIP-Question-F4-D", "F4", "Data", "In which search engines are your datasets indexed?"),
   ("FIP-Question-F4-MD", "F4", "Metadata", "In which search engines are your metadata records indexed?"),
   ("FIP-Question-A1-D", "A1", "Data", "Which standardized communication protocols do you use for datasets?"),
   ("FIP-Question-A1-MD", "A1", "Metadata", "Which standardized communication protocols do you use for metadata?"),
   ("FIP-Question-A1.1-D", "A1.1", "Data", "Which authentication & authorization technique do you use for datasets?"),
   ("FIP-Question-A1.1-MD", "A1.1", "Metadata", "Which authentication & authorization technique do you use for metadata?"),
   ("FIP-Question-A1.2-D", "A1.2", "Data", "Which authentication & authorization technique do you use for datasets?"),
   ("FIP-Question-A1.2-MD", "A1.2", "Metadata", "Which authentication & authorization technique do you use for metadata?"),
   ("FIP-Question-A2", "A2", "Metadata", "Which metadata longevity plan do you use?"),
   ("FIP-Question-I1-D", "I1", "Data", "Which knowledge representation languages do you use for datasets?"),
   ("FIP-Question-I1-MD", "I1", "Metadata", "Which knowledge representation languages do you use for metadata?"),
   ("FIP-Question-I2-D", "I2", "Data", "Which structured vocabularies do you use for datasets?"),
   ("FIP-Question-I2-MD", "I2", "Metadata", "Which structured vocabularies do you use for metadata?"),
   ("FIP-Question-I3-D", "I3", "Data", "Which models/formats do you use for qualified references between datasets?"),
   ("FIP-Question-I3-MD", "I3", "Metadata", "Which models/formats do you use for qualified references in metadata?"),
   ("FIP-Question-R1-D", "R1", "Data", "Which metadata schemas do you use for rich description?"),
   ("FIP-Question-R1-MD", "R1", "Metadata", "Which metadata schemas do you use for rich metadata description?"),
   ("FIP-Question-R1.1-D", "R1.1", "Data", "Which license do you use for datasets?"),
   ("FIP-Question-R1.1-MD", "R1.1", "Metadata", "Which license do you use for metadata?"),
   ("FIP-Question-R1.2-D", "R1.2", "Data", "Which metadata schemas do you use for provenance?"),
   ("FIP-Question-R1.2-MD", "R1.2", "Metadata", "Which metadata schemas do you use for metadata provenance?"),
   ("FIP-Question-R1.3-D", "R1.3", "Data", "Which community-endorsed standards do you follow for data?"),
   ("FIP-Question-R1.3-MD", "R1.3", "Metadata", "Which community-endorsed standards do you follow for metadata?")]

/-- The principle-matching loop of `read_fip_from_json`: the first table
entry whose lowercased key occurs in the lowercased reply path gives the
(principle, type) pair. -/
def questionMatch (path : String) : Option (String × String) :=
  FIP_QUESTIONS.findSome? (fun e =>
    if strContains (lowerStr path) (lowerStr e.1) then some (e.2.1, e.2.2.1) else none)

/-! ## Index resolver (`extract_declarations_from_index`) -/

/-- The four exact index-membership predicate URIs. -/
def indexPredicateUris : List String :=
  ["http://purl.org/nanopub/x/includesElement",
   "http://purl.org/nanopub/x/hasElement",
   "http://purl.org/nanopub/x/includes",
   "https://w3id.org/fair/fip/terms/has-declaration"]

/-- Embedding of `extract_declarations_from_index`: collect the objects of quads whose
predicate is exactly one of the four URIs, then deduplicate (the Python
`list(set(...))` has unspecified order; the embedding keeps first
occurrences). -/
def extractDeclarationsFromIndex (quads : List Quad) : List String :=
  (quads.filterMap (fun q =>
    if q.pred ∈ indexPredicateUris then some q.obj else none)).dedup

/-! ## Nanopublication fetcher (`fetch_nanopub`) -/

/-- The ordered candidate URL list of `fetch_nanopub`: the URI itself with
the format extension, then three mirror templates on the URI's last path
segment. -/
def endpointsFor (uri fmt : String) : List String :=
  let npId := splitLast uri "/"
  [uri ++ "." ++ fmt,
   "https://np.petapico.org/" ++ npId ++ "." ++ fmt,
   "https://server.np.trustyuri.net/" ++ npId ++ "." ++ fmt,
   "https://w3id.org/np/" ++ npId ++ "." ++ fmt]

/-- Whether a modelled HTTP response (`none` is a raised exception) is a
status-200 hit. -/
def isHit : Option (Nat × String) → Bool
  | some (code, _) => code == 200
  | none => false

/-- The candidate loop of `fetch_nanopub`, instrumented with the list of
candidates actually attempted: return the parsed body of the first
status-200 response, skip exceptions and other statuses. -/
def tryEndpointsTrace {G : Type} (get : String → Option (Nat × String))
    (parse : String → G) : List String → Option G × List String
  | [] => (none, [])
  | e :: rest =>
    match get e with
    | some (code, body) =>
      if code = 200 then (some (parse body), [e])
      else
        let r := tryEndpointsTrace get parse rest
        (r.1, e :: r.2)
    | none =>
      let r := tryEndpointsTrace get parse rest
      (r.1, e :: r.2)

/-- Embedding of `fetch_nanopub`, abstracted over the HTTP layer (`get`) and the trig
parser (`parse`). -/
def fetchNanopub {G : Type} (get : String → Option (Nat × String))
    (parse : String → G) (uri fmt : String) : Option G :=
  (tryEndpointsTrace get parse (endpointsFor uri fmt)).1

/-! ## The declaration-fetch loop of `read_fip_from_file` -/

/-- Step 4 of `read_fip_from_file`: fetch each of the first 50 declaration
URIs, parse the ones that arrive, and keep those with a truthy
`question_id`. -/
def fetchDeclarations (fetch : String → Option (List Quad))
    (uris : List String) : List Declaration :=
  (uris.take 50).filterMap (fun u =>
    match fetch u with
    | some g =>
      let d := parseDeclaration g
      if d.question_id.getD "" ≠ "" then some d else none
    | none => none)

/-! ## Derived observations used in the claims -/

/-- Total number of entries stored in an organized table. -/
def bucketSize (b : Bucket) : Nat :=
  b.data.length + b.metadata.length

/-- Total number of resource entries over all buckets. -/
def totalEntries (org : List (String × Bucket)) : Nat :=
  (org.map (fun kv => bucketSize kv.2)).sum

/-- The principle string `organize_by_principle` derives from a question
id: the part before the last dash, or the whole id when dashless. -/
def principleOfQid (q : String) : String :=
  if strContains q "-" then (rsplit1 "-" q).1 else q

/-- Whether one declaration record contributes an entry to the organized
table: a truthy question id whose derived principle is a known key. -/
def declContributes (d : Declaration) : Bool :=
  match d.question_id with
  | none => false
  | some q =>
    if q = "" then false else decide (principleOfQid q ∈ principleKeys)

/-- Whether one JSON-pipeline record contributes an entry to the
organized table: a truthy principle that is a known key. -/
def jsonDeclContributes (jd : JsonDecl) : Bool :=
  if jd.principle = "" then false else decide (jd.principle ∈ principleKeys)

/-- Whether a string starts with one of the letters F, A, I, R (the
condition the specification states for the last path segment). -/
def startsWithFAIR (s : String) : Bool :=
  match s.data with
  | [] => false
  | c :: _ => c == 'F' || c == 'A' || c == 'I' || c == 'R'

/-! ## Concrete inputs used by witnesses and counterexamples -/

/-- A quad whose predicate matches none of the header patterns. -/
def plainQuad : Quad := ⟨"s", "p", "o", false, "c"⟩

/-- A declaration with question id `A1.1-MD`. -/
def dA11 : Declaration :=
  ⟨some "https://w3id.org/fair/fip/terms/FIP-Question-A1.1-MD", some "A1.1-MD",
   some "ORCID", some "https://orcid.org/", "current"⟩

/-- A declaration with question id `R1.2-D`. -/
def dR12 : Declaration :=
  ⟨some "https://w3id.org/fair/fip/terms/FIP-Question-R1.2-D", some "R1.2-D",
   some "PROV-O", some "https://www.w3.org/TR/prov-o/", "current"⟩

/-- A declaration with the dashless question id `A2`. -/
def dA2 : Declaration :=
  ⟨some "https://w3id.org/fair/fip/terms/FIP-Question-A2", some "A2",
   some "Plan", some "https://example.org/plan", "current"⟩

/-- A quad referring to the question URI ending in `FIP-Question-F1-D`. -/
def qF1D : Quad :=
  ⟨"s", "https://w3id.org/fair/fip/terms/refers-to-question",
   "https://w3id.org/fair/fip/terms/FIP-Question-F1-D", false, "c"⟩

/-- A quad referring to the dashless question URI `FIP-Question-A2`. -/
def qA2 : Quad :=
  ⟨"s", "https://w3id.org/fair/fip/terms/refers-to-question",
   "https://w3id.org/fair/fip/terms/FIP-Question-A2", false, "c"⟩

/-- A quad whose question object has no `FIP-Question-` marker and whose
last path segment `bar` does not start with F, A, I or R, while the
object does contain the substring `/F` (inside `/Foo`). -/
def qFooBar : Quad :=
  ⟨"s", "https://w3id.org/fair/fip/terms/refers-to-question",
   "https://example.org/Foo/bar", false, "c"⟩

/-- A quad whose question object yields the question id `X9-D`, whose
principle prefix `X9` is not one of the 15 keys. -/
def qX9 : Quad :=
  ⟨"s", "https://w3id.org/fair/fip/terms/refers-to-question",
   "https://w3id.org/fair/fip/Foo/X9-D", false, "c"⟩

/-- The JSON-pipeline record for the `A2` question, carrying the explicit
type `Metadata` from the `FIP_QUESTIONS` table. -/
def jdA2 : JsonDecl :=
  ⟨"FIP-Question-A2", "Plan", "https://example.org/plan", "current", "A2", "Metadata"⟩

/-- A declaration whose question id `X1-D` derives the unknown principle
`X1`. -/
def dX1 : Declaration :=
  ⟨some "https://example.org/questions/X1-D", some "X1-D", some "L",
   some "https://example.org/res", "current"⟩

/-- A JSON-pipeline record carrying the unknown principle `X1`. -/
def jdX1 : JsonDecl :=
  ⟨"some/path", "L", "https://example.org/res", "current", "X1", "Data"⟩

/-- A modelled HTTP layer where the first candidate answers 404, the
second raises, the third answers 200 and the fourth is never reached. -/
def testGet : String → Option (Nat × String) := fun s =>
  if s = "https://example.org/np/RAabc.trig" then some (404, "")
  else if s = "https://server.np.trustyuri.net/RAabc.trig" then some (200, "BODY")
  else none

/-! ## Helper lemmas -/

/-- A fold leaves a projection unchanged when every step does. -/
theorem foldl_proj_const {α β γ : Type} (f : β → α → β) (proj : β → γ) (l : List α)
    (h : ∀ a ∈ l, ∀ b, proj (f b a) = proj b) :
    ∀ st, proj (List.foldl f st l) = proj st := by
  induction l with
  | nil => intro st; rfl
  | cons a l ih =>
    intro st
    rw [List.foldl_cons, ih (fun x hx b => h x (List.mem_cons_of_mem a hx) b),
      h a (List.mem_cons_self a l) st]

/-- A header step without a `label` match keeps the label field. -/
theorem headerStep_label (q : Quad) (h : strContains (lowerStr q.pred) "label" = false)
    (info : FipInfo) : (headerStep info q).label = info.label := by
  simp [headerStep, h, apply_ite FipInfo.label]

/-- A header step without a `description` match keeps the description. -/
theorem headerStep_description (q : Quad)
    (h : strContains (lowerStr q.pred) "description" = false)
    (info : FipInfo) : (headerStep info q).description = info.description := by
  simp [headerStep, h, apply_ite FipInfo.description]

/-- A header step without a `version` match keeps the version. -/
theorem headerStep_version (q : Quad) (h : strContains (lowerStr q.pred) "version" = false)
    (info : FipInfo) : (headerStep info q).version = info.version := by
  simp [headerStep, h, apply_ite FipInfo.version]

/-- A header step without a `declared-by` match keeps that field. -/
theorem headerStep_declared_by (q : Quad)
    (h : strContains (lowerStr q.pred) "declared-by" = false)
    (info : FipInfo) : (headerStep info q).declared_by = info.declared_by := by
  simp [headerStep, h, apply_ite FipInfo.declared_by]

/-- A header step without a `declaration-index` match keeps that field. -/
theorem headerStep_declaration_index (q : Quad)
    (h : strContains (lowerStr q.pred) "declaration-index" = false)
    (info : FipInfo) : (headerStep info q).declaration_index = info.declaration_index := by
  simp [headerStep, h, apply_ite FipInfo.declaration_index]

/-- A header step without a creator/orcid match keeps the creators list. -/
theorem headerStep_creators (q : Quad)
    (h : (strContains (lowerStr q.pred) "creator" && strContains q.obj "orcid.org") = false)
    (info : FipInfo) : (headerStep info q).creators = info.creators := by
  simp [headerStep, h, apply_ite FipInfo.creators]

/-- A header step without a created-literal match keeps the created field. -/
theorem headerStep_created (q : Quad)
    (h : (strContains (lowerStr q.pred) "created" && q.objLit) = false)
    (info : FipInfo) : (headerStep info q).created = info.created := by
  simp [headerStep, h, apply_ite FipInfo.created]

/-- A header step without a wizard-derivation match keeps that field. -/
theorem headerStep_wizard_source (q : Quad)
    (h : (strContains q.pred "wasDerivedFrom" && strContains q.obj "fip/wizard") = false)
    (info : FipInfo) : (headerStep info q).wizard_source = info.wizard_source := by
  simp [headerStep, h, apply_ite FipInfo.wizard_source]

/-- C9: `parse_fip_header` terminates without raising on every quad set —
in the embedding it is a total function defined on all `List Quad` — and
every field of the returned record is either null or a string by the type
of `FipInfo` (singular fields are `Option String`); moreover a field whose
pattern matches no quad stays null (the creators list stays empty). -/
theorem parseFipHeader_fields_stay_null (quads : List Quad) :
    ((∀ q ∈ quads, strContains (lowerStr q.pred) "label" = false) →
      (parseFipHeader quads).label = none) ∧
    ((∀ q ∈ quads, strContains (lowerStr q.pred) "description" = false) →
      (parseFipHeader quads).description = none) ∧
    ((∀ q ∈ quads, strContains (lowerStr q.pred) "version" = false) →
      (parseFipHeader quads).version = none) ∧
    ((∀ q ∈ quads, strContains (lowerStr q.pred) "declared-by" = false) →
      (parseFipHeader quads).declared_by = none) ∧
    ((∀ q ∈ quads, strContains (lowerStr q.pred) "declaration-index" = false) →
      (parseFipHeader quads).declaration_index = none) ∧
    ((∀ q ∈ quads, (strContains (lowerStr q.pred) "creator" && strContains q.obj "orcid.org") = false) →
      (parseFipHeader quads).creators = []) ∧
    ((∀ q ∈ quads, (strContains (lowerStr q.pred) "created" && q.objLit) = false) →
      (parseFipHeader quads).created = none) ∧
    ((∀ q ∈ quads, (strContains q.pred "wasDerivedFrom" && strContains q.obj "fip/wizard") = false) →
      (parseFipHeader quads).wizard_source = none) := by
  refine ⟨?_, ?_, ?_, ?_, ?_, ?_, ?_, ?_⟩ <;> intro h
  · exact foldl_proj_const headerStep FipInfo.label quads
      (fun a ha b => headerStep_label a (h a ha) b) emptyFipInfo
  · exact foldl_proj_const headerStep FipInfo.description quads
      (fun a ha b => headerStep_description a (h a ha) b) emptyFipInfo
  · exact foldl_proj_const headerStep FipInfo.version quads
      (fun a ha b => headerStep_version a (h a ha) b) emptyFipInfo
  · exact foldl_proj_const headerStep FipInfo.declared_by quads
      (fun a ha b => headerStep_declared_by a (h a ha) b) emptyFipInfo
  · exact foldl_proj_const headerStep FipInfo.declaration_index quads
      (fun a ha b => headerStep_declaration_index a (h a ha) b) emptyFipInfo
  · exact foldl_proj_const headerStep FipInfo.creators quads
      (fun a ha b => headerStep_creators a (h a ha) b) emptyFipInfo
  · exact foldl_proj_const headerStep FipInfo.created quads
      (fun a ha b => headerStep_created a (h a ha) b) emptyFipInfo
  · exact foldl_proj_const headerStep FipInfo.wizard_source quads
      (fun a ha b => headerStep_wizard_source a (h a ha) b) emptyFipInfo

/-- Witness for C9 at a concrete quad list whose single quad matches no
header pattern: every field of the result is null. -/
theorem parseFipHeader_fields_stay_null_witness :
    (parseFipHeader [plainQuad]).label = none ∧
    (parseFipHeader [plainQuad]).description = none ∧
    (parseFipHeader [plainQuad]).version = none ∧
    (parseFipHeader [plainQuad]).declared_by = none ∧
    (parseFipHeader [plainQuad]).declaration_index = none ∧
    (parseFipHeader [plainQuad]).creators = [] ∧
    (parseFipHeader [plainQuad]).created = none ∧
    (parseFipHeader [plainQuad]).wizard_source = none :=
  ⟨(parseFipHeader_fields_stay_null [plainQuad]).1 (by decide),
   (parseFipHeader_fields_stay_null [plainQuad]).2.1 (by decide),
   (parseFipHeader_fields_stay_null [plainQuad]).2.2.1 (by decide),
   (parseFipHeader_fields_stay_null [plainQuad]).2.2.2.1 (by decide),
   (parseFipHeader_fields_stay_null [plainQuad]).2.2.2.2.1 (by decide),
   (parseFipHeader_fields_stay_null [plainQuad]).2.2.2.2.2.1 (by decide),
   (parseFipHeader_fields_stay_null [plainQuad]).2.2.2.2.2.2.1 (by decide),
   (parseFipHeader_fields_stay_null [plainQuad]).2.2.2.2.2.2.2 (by decide)⟩

/-- C3: the index resolver returns, without duplicates, exactly the
objects of quads whose predicate is exactly one of the four
index-membership URIs; predicates that merely contain one of them as a
substring, or equal anything else, contribute nothing. -/
theorem extractDeclarations_exact_set (quads : List Quad) :
    (extractDeclarationsFromIndex quads).Nodup ∧
    ∀ u, u ∈ extractDeclarationsFromIndex quads ↔
      ∃ q, q ∈ quads ∧ q.pred ∈ indexPredicateUris ∧ q.obj = u := by
  constructor
  · exact List.nodup_dedup _
  · intro u
    rw [extractDeclarationsFromIndex, List.mem_dedup, List.mem_filterMap]
    constructor
    · rintro ⟨q, hq, hval⟩
      by_cases hp : q.pred ∈ indexPredicateUris
      · rw [if_pos hp] at hval
        exact ⟨q, hq, hp, Option.some_injective _ hval⟩
      · rw [if_neg hp] at hval
        exact absurd hval (Option.some_ne_none u).symm
    · rintro ⟨q, hq, hp, rfl⟩
      exact ⟨q, hq, if_pos hp⟩

/-- Appending into a bucket does not change the key column. -/
theorem addToBucket_keys (org : List (String × Bucket)) (k : String) (tm : Bool)
    (e : ResourceEntry) : (addToBucket org k tm e).map Prod.fst = org.map Prod.fst := by
  induction org with
  | nil => rfl
  | cons kv rest ih =>
    obtain ⟨k', b⟩ := kv
    by_cases h : k' = k <;> simp [addToBucket, h, ih]

/-- One organizer step does not change the key column. -/
theorem organizeStep_keys (org : List (String × Bucket)) (d : Declaration) :
    (organizeStep org d).map Prod.fst = org.map Prod.fst := by
  unfold organizeStep
  cases d.question_id with
  | none => rfl
  | some q =>
    by_cases hq : q = ""
    · simp [hq]
    · simp only [hq, if_false]
      split <;> split
      · exact addToBucket_keys org _ _ _
      · rfl
      · exact addToBucket_keys org _ _ _
      · rfl

/-- One JSON organizer step does not change the key column. -/
theorem organizeFromJsonStep_keys (org : List (String × Bucket)) (jd : JsonDecl) :
    (organizeFromJsonStep org jd).map Prod.fst = org.map Prod.fst := by
  unfold organizeFromJsonStep
  split
  · rfl
  · split
    · exact addToBucket_keys org _ _ _
    · rfl

/-- The fold of organizer steps keeps the key column of any start table. -/
theorem foldl_organizeStep_keys (ds : List Declaration) :
    ∀ org, (List.foldl organizeStep org ds).map Prod.fst = org.map Prod.fst := by
  induction ds with
  | nil => intro org; rfl
  | cons d ds ih => intro org; rw [List.foldl_cons, ih, organizeStep_keys]

/-- The fold of JSON organizer steps keeps the key column. -/
theorem foldl_organizeFromJsonStep_keys (js : List JsonDecl) :
    ∀ org, (List.foldl organizeFromJsonStep org js).map Prod.fst = org.map Prod.fst := by
  induction js with
  | nil => intro org; rfl
  | cons jd js ih => intro org; rw [List.foldl_cons, ih, organizeFromJsonStep_keys]

/-- The organized table always has exactly the 15 fixed keys. -/
theorem organizeByPrinciple_keys (ds : List Declaration) :
    (organizeByPrinciple ds).map Prod.fst = principleKeys := by
  rw [organizeByPrinciple, foldl_organizeStep_keys]; rfl

/-- The JSON organized table always has exactly the 15 fixed keys. -/
theorem organizeByPrincipleFromJson_keys (js : List JsonDecl) :
    (organizeByPrincipleFromJson js).map Prod.fst = principleKeys := by
  rw [organizeByPrincipleFromJson, foldl_organizeFromJsonStep_keys]; rfl

/-- A key is found in the organized table exactly when it is in the key
column. -/
theorem lookupKey_isSome_iff (k : String) (org : List (String × Bucket)) :
    (lookupKey k org).isSome = true ↔ k ∈ org.map Prod.fst := by
  induction org with
  | nil => simp [lookupKey]
  | cons kv rest ih =>
    by_cases h : kv.1 = k
    · simp [lookupKey, h]
    · simp [lookupKey, h, ih, Ne.symm h]

/-- Looking up the touched key after an in-place append returns the
grown bucket. -/
theorem lookupKey_addToBucket (org : List (String × Bucket)) (k : String) (tm : Bool)
    (e : ResourceEntry) (b : Bucket) (h : lookupKey k org = some b) :
    lookupKey k (addToBucket org k tm e) = some (bucketAdd b tm e) := by
  induction org with
  | nil => exact absurd h (by simp [lookupKey])
  | cons kv rest ih =>
    obtain ⟨k', b'⟩ := kv
    by_cases hk : k' = k
    · rw [lookupKey, if_pos hk, Option.some_inj] at h
      rw [addToBucket, if_pos hk, lookupKey, if_pos hk, Option.some_inj, h]
    · rw [lookupKey, if_neg hk] at h
      rw [addToBucket, if_neg hk, lookupKey, if_neg hk]
      exact ih h

/-- Processing one more declaration is one fold step on the table. -/
theorem organizeByPrinciple_append (ds : List Declaration) (d : Declaration) :
    organizeByPrinciple (ds ++ [d]) = organizeStep (organizeByPrinciple ds) d := by
  simp [organizeByPrinciple, List.foldl_append]

/-- C1: a declaration whose question id contains a dash is split on the
last dash; when the resulting principle prefix is one of the 15 keys the
entry is appended to that bucket, to the metadata list exactly when the
uppercased type suffix is `MD`, otherwise to the data list. -/
theorem organize_splits_on_last_dash (ds : List Declaration) (d : Declaration) (q : String)
    (hq : d.question_id = some q) (hd : strContains q "-" = true)
    (hk : (rsplit1 "-" q).1 ∈ principleKeys) :
    ∃ b, lookupKey (rsplit1 "-" q).1 (organizeByPrinciple ds) = some b ∧
      lookupKey (rsplit1 "-" q).1 (organizeByPrinciple (ds ++ [d])) =
        some (if upperStr (rsplit1 "-" q).2 = "MD"
              then { b with metadata := b.metadata ++ [entryOf d] }
              else { b with data := b.data ++ [entryOf d] }) := by
  have hsome : (lookupKey (rsplit1 "-" q).1 (organizeByPrinciple ds)).isSome = true := by
    rw [lookupKey_isSome_iff, organizeByPrinciple_keys]; exact hk
  obtain ⟨b, hb⟩ := Option.isSome_iff_exists.mp hsome
  refine ⟨b, hb, ?_⟩
  have hq0 : ¬q = "" := by
    rintro rfl; exact absurd hd (by decide)
  rw [organizeByPrinciple_append]
  unfold organizeStep
  rw [hq]
  simp only [hq0, if_false, hd, if_true, hsome]
  rw [lookupKey_addToBucket _ _ _ _ b hb]
  by_cases hmd : upperStr (rsplit1 "-" q).2 = "MD" <;>
    simp [bucketAdd, hmd]

/-- Witness for C1: `A1.1-MD` lands in bucket `A1.1`, metadata list, and
`R1.2-D` lands in bucket `R1.2`, data list. -/
theorem organize_splits_on_last_dash_witness :
    (∃ b, lookupKey (rsplit1 "-" "A1.1-MD").1 (organizeByPrinciple []) = some b ∧
      lookupKey (rsplit1 "-" "A1.1-MD").1 (organizeByPrinciple ([] ++ [dA11])) =
        some (if upperStr (rsplit1 "-" "A1.1-MD").2 = "MD"
              then { b with metadata := b.metadata ++ [entryOf dA11] }
              else { b with data := b.data ++ [entryOf dA11] })) ∧
    (∃ b, lookupKey (rsplit1 "-" "R1.2-D").1 (organizeByPrinciple []) = some b ∧
      lookupKey (rsplit1 "-" "R1.2-D").1 (organizeByPrinciple ([] ++ [dR12])) =
        some (if upperStr (rsplit1 "-" "R1.2-D").2 = "MD"
              then { b with metadata := b.metadata ++ [entryOf dR12] }
              else { b with data := b.data ++ [entryOf dR12] })) :=
  ⟨organize_splits_on_last_dash [] dA11 "A1.1-MD" rfl (by decide) (by decide),
   organize_splits_on_last_dash [] dR12 "R1.2-D" rfl (by decide) (by decide)⟩

/-- C10: a declaration whose truthy question id has no dash uses the
whole id as principle with type defaulting to `D`, so a known-key id is
always appended to the data list; in particular `FIP-Question-A2` parses
to question id `A2` and is filed under A2/data by the nanopublication
pipeline, while the JSON pipeline classifies the same A2 question as
`Metadata` and files it in A2/metadata. -/
theorem organize_dashless_goes_to_data :
    (∀ (ds : List Declaration) (d : Declaration) (q : String),
        d.question_id = some q → strContains q "-" = false → q ≠ "" →
        q ∈ principleKeys →
        ∃ b, lookupKey q (organizeByPrinciple ds) = some b ∧
          lookupKey q (organizeByPrinciple (ds ++ [d])) =
            some { b with data := b.data ++ [entryOf d] }) ∧
    (parseDeclaration [qA2]).question_id = some "A2" ∧
    questionMatch "FIP-Question-A2" = some ("A2", "Metadata") ∧
    lookupKey "A2" (organizeByPrincipleFromJson [jdA2]) =
      some ⟨[], [jsonEntryOf jdA2]⟩ := by
  refine ⟨?_, by decide, by decide, by decide⟩
  intro ds d q hq hnd hq0 hk
  have hsome : (lookupKey q (organizeByPrinciple ds)).isSome = true := by
    rw [lookupKey_isSome_iff, organizeByPrinciple_keys]; exact hk
  obtain ⟨b, hb⟩ := Option.isSome_iff_exists.mp hsome
  refine ⟨b, hb, ?_⟩
  rw [organizeByPrinciple_append]
  unfold organizeStep
  rw [hq]
  simp only [hq0, if_false, hnd, Bool.false_eq_true, if_neg, hsome, if_true]
  rw [lookupKey_addToBucket _ _ _ _ b hb]
  norm_num [bucketAdd]
  decide

/-- Witness for C10 at the concrete declaration parsed from the
`FIP-Question-A2` quad: it lands in bucket `A2`, data list. -/
theorem organize_dashless_goes_to_data_witness :
    strContains "A2" "-" = false ∧ "A2" ∈ principleKeys ∧
    (∃ b, lookupKey "A2" (organizeByPrinciple []) = some b ∧
      lookupKey "A2" (organizeByPrinciple ([] ++ [dA2])) =
        some { b with data := b.data ++ [entryOf dA2] }) :=
  ⟨by decide, by decide,
   organize_dashless_goes_to_data.1 [] dA2 "A2" rfl (by decide) (by decide) (by decide)⟩

/-- Unfolding `totalEntries` over a cons cell. -/
theorem totalEntries_cons (k : String) (b : Bucket) (rest : List (String × Bucket)) :
    totalEntries ((k, b) :: rest) = bucketSize b + totalEntries rest := by
  simp [totalEntries]

/-- Appending under a key absent from the table changes nothing. -/
theorem addToBucket_id_of_not_mem (org : List (String × Bucket)) (k : String)
    (tm : Bool) (e : ResourceEntry) (h : k ∉ org.map Prod.fst) :
    addToBucket org k tm e = org := by
  induction org with
  | nil => rfl
  | cons kv rest ih =>
    obtain ⟨k', b⟩ := kv
    simp only [List.map_cons, List.mem_cons] at h
    push_neg at h
    rw [addToBucket, if_neg (fun hh => h.1 hh.symm), ih h.2]

/-- A bucket append grows the bucket by exactly one entry. -/
theorem bucketSize_bucketAdd (b : Bucket) (tm : Bool) (e : ResourceEntry) :
    bucketSize (bucketAdd b tm e) = bucketSize b + 1 := by
  cases tm <;> simp [bucketAdd, bucketSize] <;> omega

/-- Appending under a present key of a duplicate-free table grows the
total entry count by exactly one. -/
theorem totalEntries_addToBucket (org : List (String × Bucket)) (k : String)
    (tm : Bool) (e : ResourceEntry) (b : Bucket)
    (hnd : (org.map Prod.fst).Nodup) (h : lookupKey k org = some b) :
    totalEntries (addToBucket org k tm e) = totalEntries org + 1 := by
  induction org with
  | nil => exact absurd h (by simp [lookupKey])
  | cons kv rest ih =>
    obtain ⟨k', b'⟩ := kv
    simp only [List.map_cons, List.nodup_cons] at hnd
    by_cases hk : k' = k
    · subst hk
      rw [addToBucket, if_pos rfl, totalEntries_cons, totalEntries_cons,
        bucketSize_bucketAdd, addToBucket_id_of_not_mem rest k' tm e hnd.1]
      omega
    · rw [lookupKey, if_neg hk] at h
      rw [addToBucket, if_neg hk, totalEntries_cons, totalEntries_cons, ih hnd.2 h]
      omega

/-- One organizer step adds exactly one entry when the declaration
contributes, none otherwise. -/
theorem organizeStep_totalEntries (org : List (String × Bucket)) (d : Declaration)
    (hkeys : org.map Prod.fst = principleKeys) :
    totalEntries (organizeStep org d) =
      totalEntries org + (if declContributes d then 1 else 0) := by
  have hnd : (org.map Prod.fst).Nodup := by rw [hkeys]; decide
  unfold organizeStep declContributes
  cases hq : d.question_id with
  | none => simp
  | some q =>
    by_cases hq0 : q = ""
    · simp [hq0]
    · simp only [hq0, if_false]
      have hpd : (if strContains q "-" then rsplit1 "-" q else (q, "D")).1 =
          principleOfQid q := by
        unfold principleOfQid
        by_cases hc : strContains q "-" = true <;> simp [hc]
      by_cases hs :
          (lookupKey (if strContains q "-" then rsplit1 "-" q else (q, "D")).1 org).isSome = true
      · obtain ⟨b, hb⟩ := Option.isSome_iff_exists.mp hs
        rw [if_pos hs, totalEntries_addToBucket _ _ _ _ b hnd hb]
        have hmem : principleOfQid q ∈ principleKeys := by
          rw [← hpd, ← hkeys, ← lookupKey_isSome_iff]; exact hs
        simp [hmem]
      · rw [if_neg hs]
        have hmem : principleOfQid q ∉ principleKeys := by
          rw [← hpd, ← hkeys, ← lookupKey_isSome_iff]; simpa using hs
        simp [hmem]

/-- Folding organizer steps adds one entry per contributing declaration. -/
theorem foldl_organizeStep_totalEntries (ds : List Declaration) :
    ∀ org, org.map Prod.fst = principleKeys →
      totalEntries (List.foldl organizeStep org ds) =
        totalEntries org + (ds.filter declContributes).length := by
  induction ds with
  | nil => intro org _; simp
  | cons d ds ih =>
    intro org h
    rw [List.foldl_cons, ih (organizeStep org d) (by rw [organizeStep_keys, h]),
      organizeStep_totalEntries org d h]
    by_cases hc : declContributes d = true <;> (simp [hc, List.filter_cons]; try omega)

/-- The principle component the organizer step derives from a question
id equals `principleOfQid`. -/
theorem organize_principle_fst (q : String) :
    (if strContains q "-" then rsplit1 "-" q else (q, "D")).1 = principleOfQid q := by
  unfold principleOfQid
  by_cases hc : strContains q "-" = true <;> simp [hc]

/-- A declaration whose derived principle is not a known key leaves the
organized table completely untouched: no key and no entry is added. -/
theorem organizeStep_unknown (org : List (String × Bucket)) (d : Declaration) (q : String)
    (hkeys : org.map Prod.fst = principleKeys) (hq : d.question_id = some q)
    (hq0 : q ≠ "") (hk : principleOfQid q ∉ principleKeys) :
    organizeStep org d = org := by
  unfold organizeStep
  rw [hq]
  simp only [hq0, if_false]
  have hs :
      ¬(lookupKey (if strContains q "-" then rsplit1 "-" q else (q, "D")).1 org).isSome = true := by
    rw [lookupKey_isSome_iff, organize_principle_fst, hkeys]
    exact hk
  rw [if_neg hs]

/-- A JSON record whose principle is not a known key leaves the organized
table completely untouched: no key and no entry is added. -/
theorem organizeFromJsonStep_unknown (org : List (String × Bucket)) (jd : JsonDecl)
    (hkeys : org.map Prod.fst = principleKeys) (hk : jd.principle ∉ principleKeys) :
    organizeFromJsonStep org jd = org := by
  unfold organizeFromJsonStep
  by_cases h0 : jd.principle = ""
  · rw [if_pos h0]
  · rw [if_neg h0]
    have hs : ¬(lookupKey jd.principle org).isSome = true := by
      rw [lookupKey_isSome_iff, hkeys]
      exact hk
    rw [if_neg hs]

/-- One JSON organizer step adds exactly one entry when the record
contributes, none otherwise. -/
theorem organizeFromJsonStep_totalEntries (org : List (String × Bucket)) (jd : JsonDecl)
    (hkeys : org.map Prod.fst = principleKeys) :
    totalEntries (organizeFromJsonStep org jd) =
      totalEntries org + (if jsonDeclContributes jd then 1 else 0) := by
  have hnd : (org.map Prod.fst).Nodup := by rw [hkeys]; decide
  unfold organizeFromJsonStep jsonDeclContributes
  by_cases h0 : jd.principle = ""
  · simp [h0]
  · simp only [h0, if_false]
    by_cases hs : (lookupKey jd.principle org).isSome = true
    · obtain ⟨b, hb⟩ := Option.isSome_iff_exists.mp hs
      rw [if_pos hs, totalEntries_addToBucket _ _ _ _ b hnd hb]
      have hmem : jd.principle ∈ principleKeys := by
        rw [← hkeys, ← lookupKey_isSome_iff]; exact hs
      simp [hmem]
    · rw [if_neg hs]
      have hmem : jd.principle ∉ principleKeys := by
        rw [← hkeys, ← lookupKey_isSome_iff]; simpa using hs
      simp [hmem]

/-- Folding JSON organizer steps adds one entry per contributing record. -/
theorem foldl_organizeFromJsonStep_totalEntries (js : List JsonDecl) :
    ∀ org, org.map Prod.fst = principleKeys →
      totalEntries (List.foldl organizeFromJsonStep org js) =
        totalEntries org + (js.filter jsonDeclContributes).length := by
  induction js with
  | nil => intro org _; simp
  | cons jd js ih =>
    intro org h
    rw [List.foldl_cons, ih (organizeFromJsonStep org jd) (by rw [organizeFromJsonStep_keys, h]),
      organizeFromJsonStep_totalEntries org jd h]
    by_cases hc : jsonDeclContributes jd = true <;> (simp [hc, List.filter_cons]; try omega)

/-- Processing one more JSON record is one fold step on the table. -/
theorem organizeByPrincipleFromJson_append (js : List JsonDecl) (jd : JsonDecl) :
    organizeByPrincipleFromJson (js ++ [jd]) =
      organizeFromJsonStep (organizeByPrincipleFromJson js) jd := by
  simp [organizeByPrincipleFromJson, List.foldl_append]

/-- C4: for every input list — including the empty one — both organizers
return a table whose keys are exactly the 15 fixed principle strings in
order, each bucket holding a data list and a metadata list; a record
whose principle is not one of the 15 keys adds no key and no entry: it
leaves the table untouched in either pipeline, and the JSON organizer's
total entry count is exactly the number of records whose principle is a
truthy known key. -/
theorem organizers_have_exactly_fifteen_keys (ds : List Declaration) (js : List JsonDecl) :
    (organizeByPrinciple ds).map Prod.fst =
      ["F1", "F2", "F3", "F4", "A1", "A1.1", "A1.2", "A2",
       "I1", "I2", "I3", "R1", "R1.1", "R1.2", "R1.3"] ∧
    (organizeByPrincipleFromJson js).map Prod.fst =
      ["F1", "F2", "F3", "F4", "A1", "A1.1", "A1.2", "A2",
       "I1", "I2", "I3", "R1", "R1.1", "R1.2", "R1.3"] ∧
    (∀ (d : Declaration) (q : String), d.question_id = some q → q ≠ "" →
        principleOfQid q ∉ principleKeys →
        organizeByPrinciple (ds ++ [d]) = organizeByPrinciple ds) ∧
    (∀ jd : JsonDecl, jd.principle ∉ principleKeys →
        organizeByPrincipleFromJson (js ++ [jd]) = organizeByPrincipleFromJson js) ∧
    totalEntries (organizeByPrincipleFromJson js) =
      (js.filter jsonDeclContributes).length := by
  refine ⟨organizeByPrinciple_keys ds, organizeByPrincipleFromJson_keys js, ?_, ?_, ?_⟩
  · intro d q hq hq0 hk
    rw [organizeByPrinciple_append,
      organizeStep_unknown _ d q (organizeByPrinciple_keys ds) hq hq0 hk]
  · intro jd hk
    rw [organizeByPrincipleFromJson_append,
      organizeFromJsonStep_unknown _ jd (organizeByPrincipleFromJson_keys js) hk]
  · rw [organizeByPrincipleFromJson,
      foldl_organizeFromJsonStep_totalEntries js emptyBuckets rfl]
    have h0 : totalEntries emptyBuckets = 0 := by decide
    omega

/-- Witness for C4 at the empty inputs and the concrete unknown-principle
records `dX1` (question id `X1-D`) and `jdX1` (principle `X1`): the keys
are the 15 fixed strings and neither record adds a key or an entry. -/
theorem organizers_have_exactly_fifteen_keys_witness :
    (organizeByPrinciple []).map Prod.fst =
      ["F1", "F2", "F3", "F4", "A1", "A1.1", "A1.2", "A2",
       "I1", "I2", "I3", "R1", "R1.1", "R1.2", "R1.3"] ∧
    (organizeByPrincipleFromJson []).map Prod.fst =
      ["F1", "F2", "F3", "F4", "A1", "A1.1", "A1.2", "A2",
       "I1", "I2", "I3", "R1", "R1.1", "R1.2", "R1.3"] ∧
    principleOfQid "X1-D" ∉ principleKeys ∧
    organizeByPrinciple ([] ++ [dX1]) = organizeByPrinciple [] ∧
    jdX1.principle ∉ principleKeys ∧
    organizeByPrincipleFromJson ([] ++ [jdX1]) = organizeByPrincipleFromJson [] ∧
    totalEntries (organizeByPrincipleFromJson []) =
      (List.filter jsonDeclContributes []).length :=
  ⟨(organizers_have_exactly_fifteen_keys [] []).1,
   (organizers_have_exactly_fifteen_keys [] []).2.1,
   by decide,
   (organizers_have_exactly_fifteen_keys [] []).2.2.1 dX1 "X1-D" rfl (by decide) (by decide),
   by decide,
   (organizers_have_exactly_fifteen_keys [] []).2.2.2.1 jdX1 (by decide),
   (organizers_have_exactly_fifteen_keys [] []).2.2.2.2⟩

/-- C6 (amended): every principle key of the organized table is one of
the 15 fixed strings, and a parsed declaration contributes an entry
exactly when its question id is truthy and the derived principle is one
of the 15 keys — declarations with a non-null question id whose derived
principle is unknown are also dropped silently. -/
theorem organize_pipeline_amended (ds : List Declaration) :
    (organizeByPrinciple ds).map Prod.fst = principleKeys ∧
    totalEntries (organizeByPrinciple ds) = (ds.filter declContributes).length := by
  refine ⟨organizeByPrinciple_keys ds, ?_⟩
  rw [organizeByPrinciple, foldl_organizeStep_totalEntries ds emptyBuckets rfl]
  have h0 : totalEntries emptyBuckets = 0 := by decide
  omega

/-- Counterexample to C6 as stated: the declaration parsed from the quad
`qX9` has the non-null question id `X9-D`, yet it contributes no entry to
any bucket of the organized table, because the derived principle `X9` is
not one of the 15 keys. -/
theorem organize_pipeline_counterexample :
    (parseDeclaration [qX9]).question_id = some "X9-D" ∧
    totalEntries (organizeByPrinciple [parseDeclaration [qX9]]) = 0 :=
  ⟨by decide, by decide⟩

/-- A quad not matching the question predicate leaves `question_id`
unchanged. -/
theorem declStep_qid_of_no_match (q : Quad) (h : questionPredMatch q.pred = false)
    (st : DeclState) : (declStep st q).decl.question_id = st.decl.question_id := by
  simp [declStep, h, apply_ite (fun s : DeclState => s.decl.question_id)]

/-- A question quad whose object carries the `FIP-Question-` marker sets
`question_id` to the substring after the last marker occurrence,
whatever the previous state was. -/
theorem declStep_qid_marker (st : DeclState) (q : Quad)
    (hp : questionPredMatch q.pred = true)
    (hm : strContains q.obj "FIP-Question-" = true) :
    (declStep st q).decl.question_id = some (splitLast q.obj "FIP-Question-") := by
  simp [declStep, hp, hm, apply_ite (fun s : DeclState => s.decl.question_id)]

/-- A question quad without the marker sets `question_id` to the last
path segment exactly when the object contains `/F`, `/A`, `/I` or `/R`
as a substring, and otherwise leaves it unchanged. -/
theorem declStep_qid_no_marker (st : DeclState) (q : Quad)
    (hp : questionPredMatch q.pred = true)
    (hm : strContains q.obj "FIP-Question-" = false) :
    (declStep st q).decl.question_id =
      (if strContains q.obj "/F" || strContains q.obj "/A" ||
          strContains q.obj "/I" || strContains q.obj "/R"
       then some (splitLast q.obj "/") else st.decl.question_id) := by
  by_cases hc : (strContains q.obj "/F" || strContains q.obj "/A" ||
      strContains q.obj "/I" || strContains q.obj "/R") = true <;>
    simp [declStep, hp, hm, hc, apply_ite (fun s : DeclState => s.decl.question_id)]

/-- The label-resolution epilogue never touches `question_id`. -/
theorem finalizeDecl_qid (st : DeclState) :
    (finalizeDecl st).question_id = st.decl.question_id := by
  unfold finalizeDecl
  repeat' split
  all_goals rfl

/-- Folding quads that never match the question predicate leaves
`question_id` unchanged. -/
theorem foldl_declStep_qid (ys : List Quad)
    (h : ∀ r ∈ ys, questionPredMatch r.pred = false) (st : DeclState) :
    (List.foldl declStep st ys).decl.question_id = st.decl.question_id :=
  foldl_proj_const declStep (fun s => s.decl.question_id) ys
    (fun r hr b => declStep_qid_of_no_match r (h r hr) b) st

/-- C2: when the last question-predicate quad of the graph has an object
containing `FIP-Question-`, `parse_declaration` sets `questionId` to the
substring of the object after the last occurrence of the marker. -/
theorem parse_declaration_marker_suffix (xs ys : List Quad) (q : Quad)
    (hp : questionPredMatch q.pred = true)
    (hm : strContains q.obj "FIP-Question-" = true)
    (hys : ∀ r ∈ ys, questionPredMatch r.pred = false) :
    (parseDeclaration (xs ++ q :: ys)).question_id =
      some (splitLast q.obj "FIP-Question-") := by
  unfold parseDeclaration
  rw [finalizeDecl_qid, List.foldl_append, List.foldl_cons,
    foldl_declStep_qid ys hys, declStep_qid_marker _ q hp hm]

/-- Witness for C2: a question URI ending in `.../FIP-Question-F1-D`
yields the question id `F1-D`. -/
theorem parse_declaration_marker_suffix_witness :
    questionPredMatch qF1D.pred = true ∧
    strContains qF1D.obj "FIP-Question-" = true ∧
    splitLast qF1D.obj "FIP-Question-" = "F1-D" ∧
    (parseDeclaration ([] ++ qF1D :: [])).question_id =
      some (splitLast qF1D.obj "FIP-Question-") :=
  ⟨by decide, by decide, by decide,
   parse_declaration_marker_suffix [] [] qF1D (by decide) (by decide) (by decide)⟩

/-- C7 (amended): for a question quad without the `FIP-Question-` marker,
`parse_declaration` sets `questionId` to the object's last path segment
exactly when the object contains `/F`, `/A`, `/I` or `/R` as a substring
— not when the last path segment starts with F, A, I or R. -/
theorem parse_declaration_no_marker (xs ys : List Quad) (q : Quad)
    (hxs : ∀ r ∈ xs, questionPredMatch r.pred = false)
    (hys : ∀ r ∈ ys, questionPredMatch r.pred = false)
    (hp : questionPredMatch q.pred = true)
    (hm : strContains q.obj "FIP-Question-" = false) :
    (parseDeclaration (xs ++ q :: ys)).question_id =
      (if strContains q.obj "/F" || strContains q.obj "/A" ||
          strContains q.obj "/I" || strContains q.obj "/R"
       then some (splitLast q.obj "/") else none) := by
  unfold parseDeclaration
  rw [finalizeDecl_qid, List.foldl_append, List.foldl_cons,
    foldl_declStep_qid ys hys, declStep_qid_no_marker _ q hp hm,
    foldl_declStep_qid xs hxs]
  rfl

/-- Witness for the amended C7: the object `https://example.org/Foo/bar`
contains `/F`, so the question id becomes the last segment `bar`. -/
theorem parse_declaration_no_marker_witness :
    questionPredMatch qFooBar.pred = true ∧
    strContains qFooBar.obj "FIP-Question-" = false ∧
    (parseDeclaration ([] ++ qFooBar :: [])).question_id =
      (if strContains qFooBar.obj "/F" || strContains qFooBar.obj "/A" ||
          strContains qFooBar.obj "/I" || strContains qFooBar.obj "/R"
       then some (splitLast qFooBar.obj "/") else none) :=
  ⟨by decide, by decide,
   parse_declaration_no_marker [] [] qFooBar (by decide) (by decide) (by decide) (by decide)⟩

/-- Counterexample to C7 as stated: for the object
`https://example.org/Foo/bar` the code sets `questionId` to the last
path segment `bar` even though `bar` does not start with F, A, I or R
(the substring `/F` occurs inside `/Foo`). -/
theorem parse_declaration_no_marker_counterexample :
    (parseDeclaration [qFooBar]).question_id = some "bar" ∧
    splitLast qFooBar.obj "/" = "bar" ∧
    startsWithFAIR "bar" = false :=
  ⟨by decide, by decide, by decide⟩

/-- When every candidate misses (exception or non-200), the loop returns
none after attempting the whole list. -/
theorem tryEndpointsTrace_all_miss {G : Type} (get : String → Option (Nat × String))
    (parse : String → G) (l : List String) (h : ∀ x ∈ l, isHit (get x) = false) :
    tryEndpointsTrace get parse l = (none, l) := by
  induction l with
  | nil => rfl
  | cons e rest ih =>
    have he := h e (List.mem_cons_self e rest)
    have hr := ih (fun x hx => h x (List.mem_cons_of_mem e hx))
    cases hget : get e with
    | none => simp [tryEndpointsTrace, hget, hr]
    | some cb =>
      obtain ⟨code, body⟩ := cb
      rw [hget] at he
      have hcode : ¬code = 200 := by simpa [isHit] using he
      simp [tryEndpointsTrace, hget, hcode, hr]

/-- The loop stops at the first status-200 candidate, having attempted
exactly the candidates up to and including it. -/
theorem tryEndpointsTrace_first_hit {G : Type} (get : String → Option (Nat × String))
    (parse : String → G) (xs : List String) (e : String) (ys : List String)
    (body : String) (hxs : ∀ x ∈ xs, isHit (get x) = false)
    (he : get e = some (200, body)) :
    tryEndpointsTrace get parse (xs ++ e :: ys) = (some (parse body), xs ++ [e]) := by
  induction xs with
  | nil => simp [tryEndpointsTrace, he]
  | cons x rest ih =>
    have hx := hxs x (List.mem_cons_self x rest)
    have hr := ih (fun y hy => hxs y (List.mem_cons_of_mem x hy))
    cases hget : get x with
    | none => simp [tryEndpointsTrace, hget, hr]
    | some cb =>
      obtain ⟨code, b⟩ := cb
      rw [hget] at hx
      have hcode : ¬code = 200 := by simpa [isHit] using hx
      simp [tryEndpointsTrace, hget, hcode, hr]

/-- C5: `fetch_nanopub` walks its candidate list in order; at the first
candidate whose response has status 200 it returns the parsed body, the
attempted candidates being exactly the earlier ones (each once) plus the
hit; when every candidate raises or answers non-200 it attempts all of
them once and returns none. -/
theorem fetch_nanopub_first_success {G : Type} (get : String → Option (Nat × String))
    (parse : String → G) (uri fmt : String) :
    (∀ (xs : List String) (e : String) (ys : List String) (body : String),
        endpointsFor uri fmt = xs ++ e :: ys →
        (∀ x ∈ xs, isHit (get x) = false) →
        get e = some (200, body) →
        fetchNanopub get parse uri fmt = some (parse body) ∧
        (tryEndpointsTrace get parse (endpointsFor uri fmt)).2 = xs ++ [e]) ∧
    ((∀ x ∈ endpointsFor uri fmt, isHit (get x) = false) →
        fetchNanopub get parse uri fmt = none ∧
        (tryEndpointsTrace get parse (endpointsFor uri fmt)).2 = endpointsFor uri fmt) := by
  constructor
  · intro xs e ys body heq hxs he
    have h := tryEndpointsTrace_first_hit get parse xs e ys body hxs he
    rw [fetchNanopub, heq, h]
    exact ⟨rfl, rfl⟩
  · intro h
    rw [fetchNanopub, tryEndpointsTrace_all_miss get parse _ h]
    exact ⟨rfl, rfl⟩

/-- Witness for C5 with a network where candidate 1 answers 404,
candidate 2 raises and candidate 3 answers 200 with body `BODY`: the
result is the parse of `BODY` and exactly candidates 1 to 3 are
attempted, each once. -/
theorem fetch_nanopub_first_success_witness :
    endpointsFor "https://example.org/np/RAabc" "trig" =
      ["https://example.org/np/RAabc.trig", "https://np.petapico.org/RAabc.trig"] ++
        "https://server.np.trustyuri.net/RAabc.trig" :: ["https://w3id.org/np/RAabc.trig"] ∧
    (fetchNanopub testGet id "https://example.org/np/RAabc" "trig" = some (id "BODY") ∧
      (tryEndpointsTrace testGet id (endpointsFor "https://example.org/np/RAabc" "trig")).2 =
        ["https://example.org/np/RAabc.trig", "https://np.petapico.org/RAabc.trig"] ++
          ["https://server.np.trustyuri.net/RAabc.trig"]) :=
  ⟨by decide,
   (fetch_nanopub_first_success testGet id "https://example.org/np/RAabc" "trig").1
     ["https://example.org/np/RAabc.trig", "https://np.petapico.org/RAabc.trig"]
     "https://server.np.trustyuri.net/RAabc.trig"
     ["https://w3id.org/np/RAabc.trig"] "BODY" (by decide) (by decide) (by decide)⟩

/-- C8: the declaration-fetch loop of `read_fip_from_file` processes only
the first 50 URIs of the index result: the outcome equals the outcome on
`uris.take 50`, and once 50 URIs are present any further URIs are
ignored without error. -/
theorem fetch_declarations_capped (fetch : String → Option (List Quad))
    (uris : List String) :
    fetchDeclarations fetch uris = fetchDeclarations fetch (uris.take 50) ∧
    (50 ≤ uris.length → ∀ rest,
      fetchDeclarations fetch (uris ++ rest) = fetchDeclarations fetch uris) := by
  constructor
  · unfold fetchDeclarations
    rw [List.take_take]
    norm_num
  · intro h rest
    unfold fetchDeclarations
    rw [List.take_append_eq_append_take, Nat.sub_eq_zero_of_le h, List.take_zero,
      List.append_nil]

/-- Witness for C8: with a 50-element URI list, appending one more URI
does not change the processed declarations. -/
theorem fetch_declarations_capped_witness :
    50 ≤ (List.replicate 50 "u").length ∧
    fetchDeclarations (fun _ => none) (List.replicate 50 "u" ++ ["v"]) =
      fetchDeclarations (fun _ => none) (List.replicate 50 "u") :=
  ⟨by simp,
   (fetch_declarations_capped (fun _ => none) (List.replicate 50 "u")).2 (by simp) ["v"]⟩
